import Mathlib

/-!
# Verification of Mava's N-step transition adder and parameter client

Shallow embedding of `mava/adders/reverb/transition.py`
(`ParallelNStepTransitionAdder`) and — modelled from the spec where the
implementation is absent from the sources — of the Jax parameter client
(`mava/systems/jax/parameter_client.py`, exercised by
`tests/jax/core_system_components/parameter_client_test.py`).

Numeric values are modelled exactly over `ℚ`, with the numpy dtype carried
alongside as a tag so that dtype-propagation behaviour (`np.float32` casts,
in-place ops keeping the left operand's dtype, promotion on fresh results)
is visible.  Per-agent mappings (python dicts) are association lists.
-/

/-- Numpy floating dtypes that occur in the adder code path.
`f32` models `np.float32`, `f64` models `np.float64`. -/
inductive DType where
  | f32
  | f64
deriving DecidableEq, Repr

/-- Numpy type promotion (`np.result_type`): float64 dominates float32. -/
def DType.promote : DType → DType → DType
  | .f32, .f32 => .f32
  | _, _ => .f64

/-- A numpy scalar: a dtype tag plus its exact numeric value. -/
structure Val where
  dtype : DType
  q : ℚ
deriving DecidableEq, Repr

/-- Fresh-result multiplication `x * y` (numpy promotes the dtype). -/
def Val.mul (x y : Val) : Val := ⟨x.dtype.promote y.dtype, x.q * y.q⟩

/-- In-place multiplication `operator.imul x y` (`x *= y`): the left
operand's buffer, hence its dtype, is kept. -/
def Val.imul (x y : Val) : Val := ⟨x.dtype, x.q * y.q⟩

/-- In-place addition `operator.iadd x y` (`x += y`): the left operand's
buffer, hence its dtype, is kept. -/
def Val.iadd (x y : Val) : Val := ⟨x.dtype, x.q + y.q⟩

/-- One buffered environment step (`base.Step`), as used by
`ParallelNStepTransitionAdder._write`: per-agent observations, actions,
rewards, discounts and extras.  Dicts are association lists keyed by
agent id; observation/action/extras payloads are abstracted to `Int`. -/
structure Step where
  observations : List (String × Int)
  actions : List (String × Int)
  rewards : List (String × Val)
  discounts : List (String × Val)
  extras : List (String × Int)
deriving DecidableEq, Repr

/-- The transition tuple appended to the reverb writer in `_write`.
The python code appends a 6-tuple when `extras` is truthy and a 5-tuple
otherwise; the optional sixth component is modelled with `Option`. -/
structure Transition where
  observations : List (String × Int)
  actions : List (String × Int)
  n_step_return : List (String × Val)
  total_discount : List (String × Val)
  next_observations : List (String × Int)
  extras : Option (List (String × Int))
deriving DecidableEq, Repr

/-- The rewards dict actually used by `_write` for a step: if the step's
rewards dict is empty, it is replaced by
`{agent: np.dtype("float32").type(0.0) for agent in step.discounts.keys()}`
(the "temp fix for empty rewards dict"), otherwise it is used as is.
Note the synthesized zeros are `float32` regardless of the discount dtype. -/
def stepRewards (s : Step) : List (String × Val) :=
  if s.rewards.isEmpty then s.discounts.map (fun p => (p.1, ⟨DType.f32, 0⟩))
  else s.rewards

/-- Dict access for an agent's scalar;  `tree.map_structure` pairs equal
key sets, so under the adder's key-agreement invariant the default is
never reached. -/
def lookupV (m : List (String × Val)) (a : String) : Val :=
  (m.lookup a).getD ⟨DType.f32, 0⟩

/-- The accumulation loop of `_write` (lines 177-215) for one agent:
starting from the copies of the first step's reward and discount, fold the
remaining steps' (reward, discount) pairs with
`total_discount *= self_discount; n_step_return += step_reward * total_discount;
total_discount *= step_discount`.  `g` is `self._discount` (a float32). -/
def nStepAccum (g : Val) (init : Val × Val) (rest : List (Val × Val)) : Val × Val :=
  rest.foldl
    (fun acc rd =>
      let td := Val.imul acc.2 g
      (Val.iadd acc.1 (Val.mul rd.1 td), Val.imul td rd.2))
    init

/-- Per-agent view of `_write`'s accumulators: the seed is `np.copy` of the
first step's (zero-filled) reward and of its discount — fresh buffers with
the same dtype and value — and the loop folds the remaining buffered steps. -/
def agentAccum (g : ℚ) (s0 : Step) (rest : List Step) (a : String) : Val × Val :=
  nStepAccum ⟨DType.f32, g⟩
    (lookupV (stepRewards s0) a, lookupV s0.discounts a)
    (rest.map (fun s => (lookupV (stepRewards s) a, lookupV s.discounts a)))

/-- The body of `ParallelNStepTransitionAdder._write` on a buffer `s0 :: rest` with a
pending arrival observation `nobs` (`self._next_observations`), up to the
reverb side effects: observations/actions/extras come from the first
buffered step, `n_step_return`/`total_discount` from the accumulation loop
keyed by the first step's (zero-filled) reward keys, `next_observations`
is the pending arrival observation; extras are attached only when truthy. -/
def writeTransition (g : ℚ) (s0 : Step) (rest : List Step)
    (nobs : List (String × Int)) : Transition :=
  let agents := (stepRewards s0).map Prod.fst
  { observations := s0.observations
    actions := s0.actions
    n_step_return := agents.map (fun a => (a, (agentAccum g s0 rest a).1))
    total_discount := agents.map (fun a => (a, (agentAccum g s0 rest a).2))
    next_observations := nobs
    extras := if s0.extras.isEmpty then none else some s0.extras }

/-- The transitions emitted by repeatedly calling `_write` then
`popleft()` on the buffer, front-to-back, until it is empty
(the `while self._buffer:` loop of `_write_last`). -/
def drainWrites (g : ℚ) (nobs : List (String × Int)) : List Step → List Transition
  | [] => []
  | s :: t => writeTransition g s t nobs :: drainWrites g nobs t

/-- The drain `ParallelNStepTransitionAdder._write_last`: first `self._buffer.popleft()`
discards the front step (whose full-length window was written by the
`_write` call that precedes `_write_last` in the adder's add path), then
the loop writes and pops until the buffer is empty.  Modelled on the
buffer contents at entry; the initial popleft is `List.tail`. -/
def writeLast (g : ℚ) (nobs : List (String × Int)) (buffer : List Step) :
    List Transition :=
  drainWrites g nobs buffer.tail

/-- The adder configuration recorded by
`ParallelNStepTransitionAdder.__init__`:
`self._discount = tree.map_structure(np.float32, discount)` and the buffer
size `n_step` handed to the base constructor. -/
structure AdderConfig where
  discount : Val
  bufferSize : Int
deriving DecidableEq, Repr

/-- Modelled from the spec: `ParallelNStepTransitionAdder.__init__` delegates
`buffer_size=n_step` to the base `ReverbParallelAdder` constructor
(`mava/adders/reverb/base.py`, absent from the sources); per the spec and
the constructor's own docstring, construction fails fast with `ValueError`
if the configured N-step horizon is less than 1, and otherwise records the
`float32`-cast discount. -/
def parallelNStepTransitionAdderInit (n_step : Int) (discount : ℚ) :
    Except String AdderConfig :=
  if n_step < 1 then Except.error "ValueError"
  else Except.ok ⟨⟨DType.f32, discount⟩, n_step⟩

/-- Spec-side closed form of the N-step return, following the spec's words
(refinement target, not translated from the code): with running
coefficient `coef` = `discount(s0) * ... * discount(s_im1)` scaled by the
hops already taken, each further step `(r, d)` contributes `g * coef * r`
and multiplies the coefficient by `g * d`.  `specNStepReturn g d0 rest`
is `sum over i of g^i * d0 * ... * d_im1 * r_i` for `rest = [(r1,d1),...]`. -/
def specNStepReturn (g : ℚ) : ℚ → List (ℚ × ℚ) → ℚ
  | _, [] => 0
  | coef, (r, d) :: t => g * coef * r + specNStepReturn g (g * coef * d) t

/-! ## Helper lemmas -/

/-- Looking up a key in a dict built by mapping a function over a key list
finds the function's value at that key. -/
theorem lookup_map_key {β : Type} (f : String → β) :
    ∀ (l : List String) (a : String), a ∈ l →
      List.lookup a (l.map (fun x => (x, f x))) = some (f a) := by
  intro l
  induction l with
  | nil => intro a h; cases h
  | cons x t ih =>
      intro a h
      by_cases hax : a = x
      · subst hax; simp [List.lookup]
      · have ht : a ∈ t := by
          rcases List.mem_cons.mp h with h1 | h1
          · exact absurd h1 hax
          · exact h1
        have hbeq : (a == x) = false := beq_false_of_ne hax
        simpa [List.lookup, hbeq] using ih a ht

/-- Looking up a key in a dict built by rewriting every value of another
dict finds the rewritten value, whenever the key is present. -/
theorem lookup_map_fst {γ β : Type} (f : String → β) :
    ∀ (l : List (String × γ)) (a : String), a ∈ l.map Prod.fst →
      List.lookup a (l.map (fun p => (p.1, f p.1))) = some (f a) := by
  intro l
  induction l with
  | nil => intro a h; cases h
  | cons x t ih =>
      intro a h
      by_cases hax : a = x.1
      · subst hax; simp [List.lookup]
      · have ht : a ∈ t.map Prod.fst := by
          rcases List.mem_cons.mp h with h1 | h1
          · exact absurd h1 hax
          · exact h1
        have hbeq : (a == x.1) = false := beq_false_of_ne hax
        simpa [List.lookup, hbeq] using ih a ht

/-- The value of the n-step return accumulator equals the seed reward plus
the spec's closed form seeded with the first step's discount. -/
theorem nStepAccum_fst_q (g : Val) :
    ∀ (rest : List (Val × Val)) (nsr td : Val),
      (nStepAccum g (nsr, td) rest).1.q
        = nsr.q + specNStepReturn g.q td.q (rest.map (fun p => (p.1.q, p.2.q))) := by
  intro rest
  induction rest with
  | nil => intro nsr td; simp [nStepAccum, specNStepReturn]
  | cons rd t ih =>
      intro nsr td
      have h1 : nStepAccum g (nsr, td) (rd :: t)
          = nStepAccum g
              (Val.iadd nsr (Val.mul rd.1 (Val.imul td g)),
               Val.imul (Val.imul td g) rd.2) t := rfl
      rw [h1, ih]
      simp only [specNStepReturn, List.map_cons, Val.iadd, Val.mul, Val.imul]
      have hc : td.q * g.q * rd.2.q = g.q * td.q * rd.2.q := by ring
      rw [hc]
      ring

/-! ## Concrete inputs used in witnesses and counterexamples -/

/-- Example step 0 of the spec's return-accumulation test: reward 1, env discount 1. -/
def exStep0 : Step :=
  ⟨[("a0", 10)], [("a0", 0)], [("a0", ⟨DType.f32, 1⟩)], [("a0", ⟨DType.f32, 1⟩)], []⟩

/-- Example step 1: reward 2, env discount 1. -/
def exStep1 : Step :=
  ⟨[("a0", 11)], [("a0", 1)], [("a0", ⟨DType.f32, 2⟩)], [("a0", ⟨DType.f32, 1⟩)], []⟩

/-- Example step 2: reward 3, env discount 0. -/
def exStep2 : Step :=
  ⟨[("a0", 12)], [("a0", 2)], [("a0", ⟨DType.f32, 3⟩)], [("a0", ⟨DType.f32, 0⟩)], []⟩

/-- Example arrival observations. -/
def exNobs : List (String × Int) := [("a0", 13)]

/-- A single step whose environment discount (1/2) differs from the
accumulator discount (9/10) used with it. -/
def exC2Step : Step :=
  ⟨[("a0", 10)], [("a0", 0)], [("a0", ⟨DType.f32, 5⟩)], [("a0", ⟨DType.f32, 1/2⟩)], []⟩

/-! ## Claims about the transition adder -/

/-- C1: for a write over buffer `[s0, ..., sk]` with accumulator discount g,
the emitted `n_step_return` for each agent equals
`reward(s0) + sum over i of g^i * discount(s0)*...*discount(s_im1) * reward(s_i)`
(the spec's closed form, with the accumulator discount folded in before each
step's reward and that step's environment discount after); in particular for
rewards [1,2,3], environment discounts [1,1,0], g = 9/10, the return is
`1 + 0.9*1*2 + 0.9^2*1*1*3` exactly. -/
theorem claim_C1_nStepReturn :
    (∀ (g : ℚ) (s0 : Step) (rest : List Step) (nobs : List (String × Int)) (a : String),
        a ∈ (stepRewards s0).map Prod.fst →
        ((writeTransition g s0 rest nobs).n_step_return.lookup a).map Val.q
          = some ((lookupV (stepRewards s0) a).q
              + specNStepReturn g (lookupV s0.discounts a).q
                  (rest.map (fun s => ((lookupV (stepRewards s) a).q,
                                       (lookupV s.discounts a).q)))))
    ∧ ((writeTransition (9/10) exStep0 [exStep1, exStep2] exNobs).n_step_return.lookup
          "a0").map Val.q
        = some (1 + (9/10) * 1 * 2 + (9/10)^2 * 1 * 1 * 3) := by
  constructor
  · intro g s0 rest nobs a ha
    have hl := lookup_map_key (fun a => (agentAccum g s0 rest a).1)
      ((stepRewards s0).map Prod.fst) a ha
    have hq := nStepAccum_fst_q ⟨DType.f32, g⟩
      (rest.map (fun s => (lookupV (stepRewards s) a, lookupV s.discounts a)))
      (lookupV (stepRewards s0) a) (lookupV s0.discounts a)
    simp only [writeTransition]
    rw [hl]
    simp only [Option.map_some', agentAccum]
    rw [hq]
    simp only [List.map_map]
    rfl
  · norm_num [writeTransition, agentAccum, nStepAccum, stepRewards, lookupV,
      exStep0, exStep1, exStep2, exNobs, Val.imul, Val.iadd, Val.mul, List.lookup]

/-- C1 witness: the general statement applied at the spec's concrete
three-step example. -/
theorem claim_C1_nStepReturn_witness :
    ("a0" ∈ (stepRewards exStep0).map Prod.fst)
    ∧ ((writeTransition (9/10) exStep0 [exStep1, exStep2] exNobs).n_step_return.lookup
          "a0").map Val.q
        = some ((lookupV (stepRewards exStep0) "a0").q
            + specNStepReturn (9/10) (lookupV exStep0.discounts "a0").q
                ([exStep1, exStep2].map (fun s => ((lookupV (stepRewards s) "a0").q,
                                                  (lookupV s.discounts "a0").q)))) :=
  ⟨by decide,
   claim_C1_nStepReturn.1 (9/10) exStep0 [exStep1, exStep2] exNobs "a0" (by decide)⟩

/-- C2 counterexample: for a single-step window with environment discount 1/2
and configured accumulator discount 9/10, the emitted `total_discount` is the
environment discount 1/2, not the accumulator discount alone (9/10) — so
`total_discount` is not independent of the step's environment discount. -/
theorem claim_C2_counterexample :
    ((writeTransition (9/10) exC2Step [] exNobs).total_discount.lookup "a0").map Val.q
      = some (1/2)
    ∧ ¬ (((writeTransition (9/10) exC2Step [] exNobs).total_discount.lookup "a0").map Val.q
      = some (9/10)) := by
  norm_num [writeTransition, agentAccum, nStepAccum, stepRewards, lookupV,
    exC2Step, exNobs, List.lookup]

/-- C2 (amended): for a single-step window the emitted transition has
`n_step_return` equal to the step's (zero-filled) reward — that part of
the claim holds — and `total_discount` equal to the step's own environment
discount; the configured accumulator discount is not applied at all in a
single-step window. -/
theorem claim_C2_oneStep :
    ∀ (g : ℚ) (s0 : Step) (nobs : List (String × Int)) (a : String),
      a ∈ (stepRewards s0).map Prod.fst →
      (writeTransition g s0 [] nobs).n_step_return.lookup a
          = some (lookupV (stepRewards s0) a)
      ∧ (writeTransition g s0 [] nobs).total_discount.lookup a
          = some (lookupV s0.discounts a) := by
  intro g s0 nobs a ha
  constructor
  · have hl := lookup_map_key (fun a => (agentAccum g s0 [] a).1)
      ((stepRewards s0).map Prod.fst) a ha
    simpa [writeTransition, agentAccum, nStepAccum] using hl
  · have hl := lookup_map_key (fun a => (agentAccum g s0 [] a).2)
      ((stepRewards s0).map Prod.fst) a ha
    simpa [writeTransition, agentAccum, nStepAccum] using hl

/-- C2 witness: the amended one-step statement at a concrete step. -/
theorem claim_C2_oneStep_witness :
    ("a0" ∈ (stepRewards exC2Step).map Prod.fst)
    ∧ (writeTransition (9/10) exC2Step [] exNobs).n_step_return.lookup "a0"
        = some (lookupV (stepRewards exC2Step) "a0")
    ∧ (writeTransition (9/10) exC2Step [] exNobs).total_discount.lookup "a0"
        = some (lookupV exC2Step.discounts "a0") :=
  ⟨by decide,
   (claim_C2_oneStep (9/10) exC2Step exNobs "a0" (by decide)).1,
   (claim_C2_oneStep (9/10) exC2Step exNobs "a0" (by decide)).2⟩

/-- The observations of the transitions emitted by the drain loop are the
observations of the remaining buffered steps, in buffer order: each
remaining step is the source of exactly one emitted transition. -/
theorem drainWrites_map_observations (g : ℚ) (nobs : List (String × Int)) :
    ∀ (l : List Step),
      (drainWrites g nobs l).map Transition.observations = l.map Step.observations := by
  intro l
  induction l with
  | nil => rfl
  | cons s t ih => simp [drainWrites, writeTransition, ih]

/-- C3 counterexample: on a two-step buffer, `_write_last` emits a single
transition, sourced at the second buffered step; the first buffered step is
popped without `_write_last` writing any window for it, so `_write_last`
does not write windows of every length N, N-1, ..., 1 and the first step is
not the source of any of its transitions. -/
theorem claim_C3_counterexample :
    (writeLast (9/10) exNobs [exStep0, exStep1]).length = 1
    ∧ ¬ ((writeLast (9/10) exNobs [exStep0, exStep1]).length = 2)
    ∧ (writeLast (9/10) exNobs [exStep0, exStep1]).map Transition.observations
        = [exStep1.observations]
    ∧ ¬ (exStep0.observations
          ∈ (writeLast (9/10) exNobs [exStep0, exStep1]).map Transition.observations) := by
  refine ⟨rfl, by simp [writeLast, drainWrites], ?_, ?_⟩
  · simp [writeLast, drainWrites, writeTransition]
  · simp [writeLast, drainWrites, writeTransition, exStep0, exStep1]

/-- C3 (amended): on episode end, `_write_last` first discards the front
step — whose full-length window was already written by the `_write` call
that precedes the drain in the adder's add path — and then writes
decreasing-length windows front-to-back until the buffer is empty, so that
each remaining buffered step is the source of exactly one emitted
transition, in buffer order, and none of them is dropped. -/
theorem claim_C3_drain :
    ∀ (g : ℚ) (nobs : List (String × Int)) (s0 : Step) (rest : List Step),
      writeLast g nobs (s0 :: rest) = drainWrites g nobs rest
      ∧ (writeLast g nobs (s0 :: rest)).map Transition.observations
          = rest.map Step.observations
      ∧ (writeLast g nobs (s0 :: rest)).length = rest.length := by
  intro g nobs s0 rest
  refine ⟨rfl, drainWrites_map_observations g nobs rest, ?_⟩
  have h := congrArg List.length (drainWrites_map_observations g nobs rest)
  simpa [writeLast] using h

/-- C4: constructing the N-step transition adder fails with `ValueError`
exactly when the configured `n_step` horizon is less than 1, at
construction time (the constructor returns the error instead of a
configuration). -/
theorem claim_C4_initValueError :
    ∀ (n : Int) (g : ℚ),
      parallelNStepTransitionAdderInit n g = Except.error "ValueError" ↔ n < 1 := by
  intro n g
  unfold parallelNStepTransitionAdderInit
  by_cases h : n < 1 <;> simp [h]

/-- A step with an empty reward mapping but a float64 discount for "a0". -/
def exC5Step : Step :=
  ⟨[("a0", 1)], [("a0", 0)], [], [("a0", ⟨DType.f64, 1⟩)], []⟩

/-- C5 counterexample: with an empty reward mapping and a float64 discount
for agent "a0", the synthesized zero reward is float32 — not the dtype of
that agent's discount — and the emitted one-step `n_step_return` carries
that float32 dtype. -/
theorem claim_C5_counterexample :
    stepRewards exC5Step = [("a0", ⟨DType.f32, 0⟩)]
    ∧ exC5Step.discounts.lookup "a0" = some ⟨DType.f64, 1⟩
    ∧ ¬ ((stepRewards exC5Step).lookup "a0" = some ⟨DType.f64, 0⟩)
    ∧ (writeTransition (9/10) exC5Step [] exNobs).n_step_return.lookup "a0"
        = some ⟨DType.f32, 0⟩ := by
  refine ⟨rfl, rfl, by simp [stepRewards, exC5Step, List.lookup], ?_⟩
  norm_num [writeTransition, agentAccum, nStepAccum, stepRewards, lookupV,
    exC5Step, exNobs, List.lookup]

/-- C5 (amended): a step whose reward mapping is empty but whose discount
mapping is not does not make the write fail; for each agent of the discount
mapping a zero-valued scalar reward of dtype float32 is synthesized
(regardless of that agent's discount dtype), and the accumulation proceeds
with those zeros. -/
theorem claim_C5_zeroFill :
    ∀ (s : Step), s.rewards = [] →
      stepRewards s = s.discounts.map (fun p => (p.1, (⟨DType.f32, 0⟩ : Val)))
      ∧ ∀ (g : ℚ) (nobs : List (String × Int)) (a : String),
          a ∈ s.discounts.map Prod.fst →
          (writeTransition g s [] nobs).n_step_return.lookup a
            = some ⟨DType.f32, 0⟩ := by
  intro s hs
  have hzf : stepRewards s = s.discounts.map (fun p => (p.1, (⟨DType.f32, 0⟩ : Val))) := by
    simp [stepRewards, hs]
  refine ⟨hzf, ?_⟩
  intro g nobs a ha
  have hkeys : (stepRewards s).map Prod.fst = s.discounts.map Prod.fst := by
    rw [hzf, List.map_map]
    rfl
  have hl := lookup_map_key (fun a => (agentAccum g s [] a).1)
    ((stepRewards s).map Prod.fst) a (by rw [hkeys]; exact ha)
  have hv : lookupV (stepRewards s) a = ⟨DType.f32, 0⟩ := by
    have := lookup_map_fst (fun _ => (⟨DType.f32, 0⟩ : Val)) s.discounts a ha
    simp [lookupV, hzf, this]
  have hacc : (agentAccum g s [] a).1 = ⟨DType.f32, 0⟩ := by
    simp [agentAccum, nStepAccum, hv]
  simpa [writeTransition, hacc] using hl

/-- C5 witness: the amended zero-fill statement at a concrete step with an
empty reward mapping and a float64 discount. -/
theorem claim_C5_zeroFill_witness :
    exC5Step.rewards = []
    ∧ stepRewards exC5Step
        = exC5Step.discounts.map (fun p => (p.1, (⟨DType.f32, 0⟩ : Val)))
    ∧ (writeTransition (9/10) exC5Step [] exNobs).n_step_return.lookup "a0"
        = some ⟨DType.f32, 0⟩ :=
  ⟨rfl, (claim_C5_zeroFill exC5Step rfl).1,
   (claim_C5_zeroFill exC5Step rfl).2 (9/10) exNobs "a0" (by decide)⟩

/-- Step 0 of the extras example: carries extras {"h": 5}. -/
def exH5Step0 : Step :=
  ⟨[("a0", 10)], [("a0", 0)], [("a0", ⟨DType.f32, 1⟩)], [("a0", ⟨DType.f32, 1⟩)],
   [("h", 5)]⟩

/-- Step 1 of the extras example: carries extras {"h": 9}. -/
def exH5Step1 : Step :=
  ⟨[("a0", 11)], [("a0", 1)], [("a0", ⟨DType.f32, 2⟩)], [("a0", ⟨DType.f32, 1⟩)],
   [("h", 9)]⟩

/-- C6: every emitted transition takes its observations, actions and extras
from the first step of the window and its next_observations from the
provided arrival observations; in particular with step-0 extras {"h": 5}
and step-1 extras {"h": 9}, the emitted 2-step transition's extras are
{"h": 5}. -/
theorem claim_C6_firstStepFields :
    (∀ (g : ℚ) (s0 : Step) (rest : List Step) (nobs : List (String × Int)),
        (writeTransition g s0 rest nobs).observations = s0.observations
        ∧ (writeTransition g s0 rest nobs).actions = s0.actions
        ∧ (writeTransition g s0 rest nobs).next_observations = nobs
        ∧ (s0.extras ≠ [] → (writeTransition g s0 rest nobs).extras = some s0.extras))
    ∧ (writeTransition (9/10) exH5Step0 [exH5Step1] exNobs).extras = some [("h", 5)] := by
  constructor
  · intro g s0 rest nobs
    refine ⟨rfl, rfl, rfl, ?_⟩
    intro hne
    simp [writeTransition, List.isEmpty_iff, hne]
  · rfl

/-- C6 witness: the general statement applied at the two-step extras
example. -/
theorem claim_C6_firstStepFields_witness :
    exH5Step0.extras ≠ []
    ∧ (writeTransition (9/10) exH5Step0 [exH5Step1] exNobs).extras
        = some exH5Step0.extras :=
  ⟨by decide,
   (claim_C6_firstStepFields.1 (9/10) exH5Step0 [exH5Step1] exNobs).2.2.2 (by decide)⟩

/-! ## Heap model of the in-place accumulation (`np.copy`, `*=`, `+=`)

The numpy buffers touched by `_write` are modelled as cells of an explicit
heap (`List ℚ`, indexed by allocation order); the buffered steps' reward and
discount arrays are references into that heap, `np.copy` allocates a fresh
cell at the end, and `operator.imul`/`operator.iadd` mutate a cell in
place.  This makes the claim that `_write` never mutates the buffered
steps expressible. -/

/-- Read a heap cell. -/
def hget (h : List ℚ) (r : Nat) : ℚ := (h[r]?).getD 0

/-- Write a heap cell in place. -/
def hset (h : List ℚ) (r : Nat) (v : ℚ) : List ℚ := h.set r v

/-- One iteration of `_write`'s loop, heap version: `rd.1`/`rd.2` are the
references of the current step's reward/discount cells and the iteration
performs, in place, `total_discount *= g` (line 200),
`n_step_return += reward * total_discount` (lines 204-209) and
`total_discount *= discount` (line 215). -/
def accumStep (g : ℚ) (td nsr : Nat) (rd : Nat × Nat) (h : List ℚ) : List ℚ :=
  let h1 := hset h td (hget h td * g)
  let h2 := hset h1 nsr (hget h1 nsr + hget h1 rd.1 * hget h1 td)
  hset h2 td (hget h2 td * hget h2 rd.2)

/-- The loop of `_write` over the remaining buffered steps, heap version. -/
def accumLoop (g : ℚ) (td nsr : Nat) : List (Nat × Nat) → List ℚ → List ℚ
  | [], h => h
  | rd :: t, h => accumLoop g td nsr t (accumStep g td nsr rd h)

/-- The write `_write`, heap version: copy the first step's discount into a fresh
`total_discount` cell (line 162), copy its reward into a fresh
`n_step_return` cell (lines 167-171), then run the in-place accumulation
loop.  Returns the final heap and the two accumulator references. -/
def writeHeap (g : ℚ) (h : List ℚ) (first : Nat × Nat)
    (rest : List (Nat × Nat)) : List ℚ × Nat × Nat :=
  let td := h.length
  let h1 := h ++ [hget h first.2]
  let nsr := h1.length
  let h2 := h1 ++ [hget h1 first.1]
  (accumLoop g td nsr rest h2, nsr, td)

/-- Writing one cell leaves every other cell unchanged. -/
theorem hget_hset_ne (h : List ℚ) (i r : Nat) (v : ℚ) (hr : r ≠ i) :
    hget (hset h i v) r = hget h r := by
  simp [hget, hset, List.getElem?_set_ne (Ne.symm hr)]

/-- Allocating at the end leaves existing cells unchanged. -/
theorem hget_append (h t : List ℚ) (r : Nat) (hr : r < h.length) :
    hget (h ++ t) r = hget h r := by
  simp [hget, List.getElem?_append, hr]

/-- One loop iteration mutates only the `td` and `nsr` cells. -/
theorem accumStep_frame (g : ℚ) (td nsr : Nat) (rd : Nat × Nat) (h : List ℚ)
    (r : Nat) (h1 : r ≠ td) (h2 : r ≠ nsr) :
    hget (accumStep g td nsr rd h) r = hget h r := by
  simp only [accumStep]
  rw [hget_hset_ne _ _ _ _ h1, hget_hset_ne _ _ _ _ h2, hget_hset_ne _ _ _ _ h1]

/-- The accumulation loop mutates only the `td` and `nsr` cells. -/
theorem accumLoop_frame (g : ℚ) (td nsr : Nat) :
    ∀ (rest : List (Nat × Nat)) (h : List ℚ) (r : Nat), r ≠ td → r ≠ nsr →
      hget (accumLoop g td nsr rest h) r = hget h r := by
  intro rest
  induction rest with
  | nil => intro h r _ _; rfl
  | cons rd t ih =>
      intro h r h1 h2
      simp only [accumLoop]
      rw [ih _ r h1 h2, accumStep_frame g td nsr rd h r h1 h2]

/-- C10: `_write` never mutates the buffered steps.  In the heap model,
every cell that existed before the write — in particular every buffered
step's reward and discount cell — holds the same value after `_write`
returns, because the `n_step_return` and `total_discount` accumulators are
`np.copy`s allocated at fresh cells and the in-place `*=`/`+=` folds touch
only those fresh cells. -/
theorem claim_C10_noBufferMutation :
    ∀ (g : ℚ) (h : List ℚ) (first : Nat × Nat) (rest : List (Nat × Nat)) (r : Nat),
      r < h.length → hget (writeHeap g h first rest).1 r = hget h r := by
  intro g h first rest r hr
  have h1 : r ≠ h.length := Nat.ne_of_lt hr
  have h2 : r ≠ (h ++ [hget h first.2]).length := by
    simp only [List.length_append, List.length_cons, List.length_nil]
    omega
  have hfr : r < (h ++ [hget h first.2]).length := by
    simp only [List.length_append]
    omega
  calc hget (writeHeap g h first rest).1 r
      = hget ((h ++ [hget h first.2]) ++ [hget (h ++ [hget h first.2]) first.1]) r :=
        accumLoop_frame g h.length (h ++ [hget h first.2]).length rest _ r h1 h2
    _ = hget (h ++ [hget h first.2]) r := hget_append _ _ r hfr
    _ = hget h r := hget_append _ _ r hr

/-- C10 witness: a concrete two-cell heap (reward 1 at cell 0, discount 1/2
at cell 1) is unchanged by a two-step write that reuses those cells. -/
theorem claim_C10_noBufferMutation_witness :
    (0 < ([1, 1/2] : List ℚ).length)
    ∧ hget (writeHeap (9/10) [1, 1/2] (0, 1) [(0, 1)]).1 0 = hget [1, 1/2] 0 :=
  ⟨by norm_num, claim_C10_noBufferMutation (9/10) [1, 1/2] (0, 1) [(0, 1)] 0 (by norm_num)⟩

/-! ## Parameter client (spec-modelled)

The Jax parameter client implementation
(`mava/systems/jax/parameter_client.py`) is not among the sources; only its
tests are.  The definitions below are therefore modelled from the spec
(sections 4.3-4.4), with parameter values as a tagged union: a numeric
leaf, a nested mapping of numeric leaves (flattened to one mapping level),
or an unsupported runtime value. -/

/-- Modelled from the spec: a parameter value is either a numeric
scalar/array (`leaf`), a nested mapping of numeric leaves (`group`, e.g.
per-layer weights/biases), or some other unsupported runtime value
(`other`, e.g. a lambda, as in the test for the type guard). -/
inductive PVal where
  | leaf : Int → PVal
  | group : List (String × Int) → PVal
  | other : PVal
deriving DecidableEq, Repr

/-- Python dict assignment `m[k] = v` on an association list: replace the
first binding of `k`, or append a new binding if `k` is absent. -/
def dictSet {β : Type} (m : List (String × β)) (k : String) (v : β) :
    List (String × β) :=
  match m with
  | [] => [(k, v)]
  | p :: t => if p.1 = k then (k, v) :: t else p :: dictSet t k v

/-- Modelled from the spec: the per-consumer parameter client state — the
local cache `parameters`, the pull/push key partition `get_keys`/`set_keys`,
the `update_period` and the internal call counter of the periodic hook. -/
structure ParameterClient where
  parameters : List (String × PVal)
  get_keys : List String
  set_keys : List String
  update_period : Nat
  call_counter : Nat
deriving DecidableEq, Repr

/-- Modelled from the spec: `ParameterServer.get_parameters(names)` returns
the store's current values for the requested keys as a name → value
mapping (names absent from the store are the store's failure case and are
skipped here; the claims always request present names). -/
def get_parameters (store : List (String × PVal)) (names : List String) :
    List (String × PVal) :=
  names.filterMap (fun k => (store.lookup k).map (fun v => (k, v)))

/-- Modelled from the spec: `ParameterClient.get_and_wait()` synchronously
fetches `get_keys` from the store and overwrites the local cache entries
for exactly those keys; cache entries not in `get_keys` (e.g.
`set_keys`-only entries) are left untouched. -/
def getAndWait (store : List (String × PVal)) (c : ParameterClient) :
    ParameterClient :=
  let newCache :=
    (get_parameters store c.get_keys).foldl
      (fun cache p => dictSet cache p.1 p.2) c.parameters
  { c with parameters := newCache }

/-- Setting a key makes it look up to the new value. -/
theorem lookup_dictSet_self {β : Type} :
    ∀ (m : List (String × β)) (k : String) (v : β),
      (dictSet m k v).lookup k = some v := by
  intro m
  induction m with
  | nil => intro k v; simp [dictSet, List.lookup]
  | cons p t ih =>
      intro k v
      by_cases hp : p.1 = k
      · simp [dictSet, hp, List.lookup]
      · have hbeq : (k == p.1) = false := beq_false_of_ne (fun h => hp h.symm)
        simp [dictSet, hp, List.lookup, hbeq, ih]

/-- Setting a key leaves the lookup of every other key unchanged. -/
theorem lookup_dictSet_ne {β : Type} :
    ∀ (m : List (String × β)) (k k' : String) (v : β), k' ≠ k →
      (dictSet m k v).lookup k' = m.lookup k' := by
  intro m
  induction m with
  | nil =>
      intro k k' v hne
      have hbeq : (k' == k) = false := beq_false_of_ne hne
      simp [dictSet, List.lookup, hbeq]
  | cons p t ih =>
      intro k k' v hne
      by_cases hp : p.1 = k
      · have hbeq : (k' == k) = false := beq_false_of_ne hne
        have hbeq2 : (k' == p.1) = false := by rw [hp]; exact hbeq
        simp [dictSet, hp, List.lookup, hbeq, hbeq2]
      · by_cases hk' : k' = p.1
        · simp [dictSet, hp, List.lookup, hk']
        · have hbeq : (k' == p.1) = false := beq_false_of_ne hk'
          simp [dictSet, hp, List.lookup, hbeq, ih k k' v hne]

/-- Folding the fetched values for `names` into the cache leaves every key
outside `names` untouched. -/
theorem foldFetch_frame (store : List (String × PVal)) :
    ∀ (names : List String) (cache : List (String × PVal)) (k : String),
      k ∉ names →
      ((get_parameters store names).foldl
          (fun cache p => dictSet cache p.1 p.2) cache).lookup k
        = cache.lookup k := by
  intro names
  induction names with
  | nil => intro cache k _; rfl
  | cons n t ih =>
      intro cache k hk
      have hkn : k ≠ n := fun h => hk (h ▸ List.mem_cons_self n t)
      have hkt : k ∉ t := fun h => hk (List.mem_cons_of_mem n h)
      cases hsn : store.lookup n with
      | none =>
          simpa [get_parameters, List.filterMap_cons, hsn] using ih cache k hkt
      | some v =>
          have := ih (dictSet cache n v) k hkt
          simpa [get_parameters, List.filterMap_cons, hsn,
            lookup_dictSet_ne cache n k v hkn] using this

/-- Folding the fetched values for `names` into the cache makes every key
of `names` that the store holds look up to the store's value. -/
theorem foldFetch_get (store : List (String × PVal)) :
    ∀ (names : List String) (cache : List (String × PVal)) (k : String) (v : PVal),
      k ∈ names → store.lookup k = some v →
      ((get_parameters store names).foldl
          (fun cache p => dictSet cache p.1 p.2) cache).lookup k
        = some v := by
  intro names
  induction names with
  | nil => intro cache k v hk; cases hk
  | cons n t ih =>
      intro cache k v hk hv
      by_cases hkt : k ∈ t
      · cases hsn : store.lookup n with
        | none =>
            simpa [get_parameters, List.filterMap_cons, hsn] using
              ih cache k v hkt hv
        | some w =>
            simpa [get_parameters, List.filterMap_cons, hsn] using
              ih (dictSet cache n w) k v hkt hv
      · have hkn : k = n := by
          rcases List.mem_cons.mp hk with h1 | h1
          · exact h1
          · exact absurd h1 hkt
        subst hkn
        rw [get_parameters, List.filterMap_cons, hv]
        simpa [get_parameters] using
          (foldFetch_frame store t (dictSet cache k v) k hkt).trans
            (lookup_dictSet_self cache k v)

/-- C7: after `get_and_wait()`, the local cache entry of every key in
`get_keys` equals the store's current value for it, and every cache entry
whose key is not in `get_keys` (e.g. a `set_keys`-only entry) is left
untouched. -/
theorem claim_C7_getAndWait :
    ∀ (store : List (String × PVal)) (c : ParameterClient) (k : String),
      (∀ v, k ∈ c.get_keys → store.lookup k = some v →
          (getAndWait store c).parameters.lookup k = some v)
      ∧ (k ∉ c.get_keys →
          (getAndWait store c).parameters.lookup k = c.parameters.lookup k) := by
  intro store c k
  constructor
  · intro v hk hv
    simpa [getAndWait] using foldFetch_get store c.get_keys c.parameters k v hk hv
  · intro hk
    simpa [getAndWait] using foldFetch_frame store c.get_keys c.parameters k hk

/-- Concrete parameter store for the client witnesses: "a", "b" are pulled
keys, "c" a pushed key. -/
def exPStore : List (String × PVal) :=
  [("a", PVal.leaf 100), ("b", PVal.leaf 200), ("c", PVal.leaf 300)]

/-- Concrete client: caches stale values, pulls {"a","b"}, pushes {"c"}. -/
def exPClient : ParameterClient :=
  ⟨[("a", PVal.leaf 1), ("b", PVal.leaf 2), ("c", PVal.leaf 3)],
   ["a", "b"], ["c"], 10, 0⟩

/-- C7 witness: the statement applied at the concrete store and client —
"a" is overwritten with the store's value and the `set_keys`-only entry
"c" is untouched. -/
theorem claim_C7_getAndWait_witness :
    ("a" ∈ exPClient.get_keys)
    ∧ exPStore.lookup "a" = some (PVal.leaf 100)
    ∧ (getAndWait exPStore exPClient).parameters.lookup "a" = some (PVal.leaf 100)
    ∧ ("c" ∉ exPClient.get_keys)
    ∧ (getAndWait exPStore exPClient).parameters.lookup "c"
        = exPClient.parameters.lookup "c" :=
  ⟨by decide, by decide,
   (claim_C7_getAndWait exPStore exPClient "a").1 (PVal.leaf 100) (by decide) (by decide),
   by decide,
   (claim_C7_getAndWait exPStore exPClient "c").2 (by decide)⟩

/-- Modelled from the spec: the periodic non-blocking hook
`_adjust_and_request` increments the internal call counter on each
invocation; when the counter reaches `update_period` it resets to zero and
triggers one best-effort synchronization with the store (modelled here as
the blocking fetch); otherwise it is a no-op.  The second component is the
number of store round trips this invocation performed (0 or 1). -/
def adjustAndRequest (store : List (String × PVal)) (c : ParameterClient) :
    ParameterClient × Nat :=
  if c.update_period ≤ c.call_counter + 1 then
    ({ getAndWait store c with call_counter := 0 }, 1)
  else
    ({ c with call_counter := c.call_counter + 1 }, 0)

/-- Invoke the periodic hook `n` times in a row, counting the total number
of store round trips performed. -/
def runAdjust (store : List (String × PVal)) :
    ParameterClient → Nat → ParameterClient × Nat
  | c, 0 => (c, 0)
  | c, n + 1 =>
      let s := adjustAndRequest store c
      let r := runAdjust store s.1 n
      (r.1, s.2 + r.2)

/-- While the counter stays strictly below the period, the hook performs no
round trip and just advances the counter. -/
theorem runAdjust_below (store : List (String × PVal)) :
    ∀ (n : Nat) (c : ParameterClient), c.call_counter + n < c.update_period →
      (runAdjust store c n).2 = 0
      ∧ (runAdjust store c n).1.call_counter = c.call_counter + n
      ∧ (runAdjust store c n).1.update_period = c.update_period := by
  intro n
  induction n with
  | zero => intro c h; exact ⟨rfl, rfl, rfl⟩
  | succ m ih =>
      intro c h
      have hlt : ¬ (c.update_period ≤ c.call_counter + 1) := by omega
      have harg : c.call_counter + 1 + m < c.update_period := by omega
      have hrec := ih { c with call_counter := c.call_counter + 1 } harg
      have h21 : (runAdjust store { c with call_counter := c.call_counter + 1 } m).1.call_counter
          = c.call_counter + 1 + m := hrec.2.1
      have h22 : (runAdjust store { c with call_counter := c.call_counter + 1 } m).1.update_period
          = c.update_period := hrec.2.2
      simp only [runAdjust, adjustAndRequest, hlt, if_false, Nat.zero_add]
      exact ⟨hrec.1, h21.trans (by omega), h22⟩

/-- The invocation at which the counter reaches the period performs exactly
one round trip and resets the counter to zero; the earlier invocations of
the run perform none. -/
theorem runAdjust_reach (store : List (String × PVal)) :
    ∀ (n : Nat) (c : ParameterClient), c.call_counter + n + 1 = c.update_period →
      (runAdjust store c (n + 1)).2 = 1
      ∧ (runAdjust store c (n + 1)).1.call_counter = 0 := by
  intro n
  induction n with
  | zero =>
      intro c h
      have hge : c.update_period ≤ c.call_counter + 1 := by omega
      simp [runAdjust, adjustAndRequest, hge]
  | succ m ih =>
      intro c h
      have hlt : ¬ (c.update_period ≤ c.call_counter + 1) := by omega
      have harg : c.call_counter + 1 + (m + 1) = c.update_period := by omega
      have hrec := ih { c with call_counter := c.call_counter + 1 } harg
      simp only [runAdjust, adjustAndRequest, hlt, if_false, Nat.zero_add] at hrec ⊢
      exact hrec

/-- C8: with `update_period = 10` and a fresh counter, nine invocations of
the periodic-adjustment hook perform no store round trip; the tenth run's
final invocation performs exactly one (ten invocations perform one round
trip in total) and resets the internal counter to zero, so staleness is
bounded by at most `update_period` calls. -/
theorem claim_C8_periodicGate :
    ∀ (store : List (String × PVal)) (c : ParameterClient),
      c.update_period = 10 → c.call_counter = 0 →
      (runAdjust store c 9).2 = 0
      ∧ (runAdjust store c 10).2 = 1
      ∧ (runAdjust store c 10).1.call_counter = 0 := by
  intro store c hp hc
  refine ⟨(runAdjust_below store 9 c (by omega)).1, ?_, ?_⟩
  · exact (runAdjust_reach store 9 c (by omega)).1
  · exact (runAdjust_reach store 9 c (by omega)).2

/-- C8 witness: the periodic gate at the concrete client (period 10,
counter 0) and store. -/
theorem claim_C8_periodicGate_witness :
    exPClient.update_period = 10
    ∧ exPClient.call_counter = 0
    ∧ (runAdjust exPStore exPClient 9).2 = 0
    ∧ (runAdjust exPStore exPClient 10).2 = 1
    ∧ (runAdjust exPStore exPClient 10).1.call_counter = 0 :=
  ⟨rfl, rfl,
   (claim_C8_periodicGate exPStore exPClient rfl rfl).1,
   (claim_C8_periodicGate exPStore exPClient rfl rfl).2.1,
   (claim_C8_periodicGate exPStore exPClient rfl rfl).2.2⟩

/-- Modelled from the spec: merging one new parameter value into the cached
value in `_copy`.  A nested mapping merges by per-leaf-key replacement into
the cached group; a numeric leaf overwrites by numeric assignment; any
other runtime type fails with `NotImplementedError` — the deliberate guard
against silently accepting unsupported parameter shapes. -/
def copyValue (old new : PVal) : Except String PVal :=
  match new with
  | PVal.group m =>
      Except.ok (match old with
        | PVal.group mold => PVal.group (m.foldl (fun acc p => dictSet acc p.1 p.2) mold)
        | _ => PVal.group m)
  | PVal.leaf v => Except.ok (PVal.leaf v)
  | PVal.other => Except.error "NotImplementedError"

/-- Modelled from the spec: `ParameterClient._copy(new_parameters)` walks the
new parameters in order, merging each into the local cache, and raises
`NotImplementedError` at the first unsupported value. -/
def pcCopy : List (String × PVal) → List (String × PVal) →
    Except String (List (String × PVal))
  | cache, [] => Except.ok cache
  | cache, p :: t =>
      match copyValue ((cache.lookup p.1).getD PVal.other) p.2 with
      | Except.error e => Except.error e
      | Except.ok v => pcCopy (dictSet cache p.1 v) t

/-- C9: the cache-merge primitive `_copy` raises `NotImplementedError` if
and only if some new parameter's value is neither a nested mapping nor a
numeric leaf; for supported values the merge completes without error, and a
supported update is applied to the cache rather than silently dropped
(shown for a numeric leaf: the result is exactly the cache with that key
assigned). -/
theorem claim_C9_copyTypeGuard :
    (∀ (cache newParams : List (String × PVal)),
        pcCopy cache newParams = Except.error "NotImplementedError"
          ↔ ∃ p ∈ newParams, p.2 = PVal.other)
    ∧ (∀ (cache : List (String × PVal)) (k : String) (n : Int),
        pcCopy cache [(k, PVal.leaf n)] = Except.ok (dictSet cache k (PVal.leaf n))) := by
  constructor
  · intro cache newParams
    induction newParams generalizing cache with
    | nil => simp [pcCopy]
    | cons p t ih =>
        rcases p with ⟨k, v⟩
        cases v with
        | leaf n => simp [pcCopy, copyValue, ih]
        | group m => simp [pcCopy, copyValue, ih]
        | other => simp [pcCopy, copyValue]
  · intro cache k n
    rfl

/-- C9 witness: the leaf-assignment statement at a concrete cache, plus the
guard firing on an unsupported value. -/
theorem claim_C9_copyTypeGuard_witness :
    pcCopy [("a", PVal.leaf 1)] [("a", PVal.leaf 20)]
        = Except.ok (dictSet [("a", PVal.leaf 1)] "a" (PVal.leaf 20))
    ∧ pcCopy [("a", PVal.leaf 1)] [("w", PVal.other)]
        = Except.error "NotImplementedError" :=
  ⟨claim_C9_copyTypeGuard.2 [("a", PVal.leaf 1)] "a" 20,
   (claim_C9_copyTypeGuard.1 [("a", PVal.leaf 1)] [("w", PVal.other)]).mpr
     ⟨("w", PVal.other), by simp⟩⟩

/-- C4 witness: construction with n_step = 0 fails with ValueError and with
n_step = 3 it does not. -/
theorem claim_C4_initValueError_witness :
    parallelNStepTransitionAdderInit 0 (9/10) = Except.error "ValueError"
    ∧ ¬ (parallelNStepTransitionAdderInit 3 (9/10) = Except.error "ValueError") :=
  ⟨(claim_C4_initValueError 0 (9/10)).mpr (by norm_num),
   fun h => absurd ((claim_C4_initValueError 3 (9/10)).mp h) (by norm_num)⟩
